import Mathlib

/-!
Verification of the calendar configuration codec and period resolver
(`src/script.ts`: `compressYAML`, `decompressJSON`, and the calendar
generation core: `normalizePeriods`, `getColorsForDate`).

Modelling conventions
* A date string `YYYY-MM-DD` is represented by its day index relative to
  1970-01-01 (`2025-01-01` is day 20089).  Every instant the code builds from
  such a string is the UTC midnight of that day, i.e. the epoch-millisecond
  value `day * 86400000`; `new Date(s).getTime()` is modelled by that product
  and `new Date(ms).toISOString().split('T')[0]` by flooring division.
* JavaScript machine integers in play (epoch milliseconds, 100-second units,
  day counts, years) stay far below 2^53, so `Int` models them exactly.
* Optional object fields are `Option`s; the JS truthiness tests the code
  performs on them (`if (period.label)` …) are modelled explicitly, with the
  empty string being falsy.
-/

namespace Calendar

/-- Day index of a calendar date (days since 1970-01-01, may be negative). -/
abbrev Day := Int

/-- `HighlightPeriod` (src/types.ts): `start?`, `end?`, `dates?` are date
strings (modelled by day indices), `color` is required, `label?` optional. -/
structure HighlightPeriod where
  start : Option Day
  stop : Option Day
  dates : Option (List Day)
  color : String
  label : Option String
  deriving DecidableEq, Repr

/-- `CalendarConfig` as it exists at runtime after `jsyaml.load` /
before `jsyaml.dump` (a `Partial<CalendarConfig>`): every field may be
absent.  `timezone` is read and written by the codec even though the
static interface omits it. -/
structure CalendarConfig where
  years : Option (List Int)
  highlightPeriods : Option (List HighlightPeriod)
  timezone : Option String
  deriving DecidableEq, Repr

/-- `CompressedPeriod` (src/types.ts): the three positional wire shapes, plus
the defensive passthrough of a period that matches neither branch of the
encoder.  The constructor corresponds exactly to the decoder's runtime-type
dispatch: `range` = element 0 and 1 both numbers, `multi` = element 0 an
array, `single` = remaining arrays, `raw` = not an array. -/
inductive CompressedPeriod where
  | range (startUnits : Int) (dayDifference : Int) (color : String) (label : Option String)
  | single (units : Int) (color : String) (label : Option String)
  | multi (nums : List Int) (color : String) (label : Option String)
  | raw (p : HighlightPeriod)
  deriving DecidableEq, Repr

/-- `CompressedData`: positional top-level array.  Positions 0 and 1 are
initialised to `[]` and always present; position 2 (timezone) is optional. -/
structure CompressedData where
  years : List Int
  periods : List CompressedPeriod
  timezone : Option String
  deriving DecidableEq, Repr

/-- `Math.floor(new Date(dateStr).getTime() / 100000)`: the 100-second unit
index of the day's midnight instant (`Math.floor` is flooring division). -/
def dateToUnits (d : Day) : Int := Int.fdiv (d * 86400000) 100000

/-- `Math.ceil(a / b)` for integer `a` and positive `b`. -/
def ceilDiv (a b : Int) : Int := -(Int.fdiv (-a) b)

/-- `new Date(ms).toISOString().split('T')[0]`: the UTC calendar day
containing the instant `ms`. -/
def msToDay (ms : Int) : Day := Int.fdiv ms 86400000

/-- The truthiness filter both codec directions apply to the optional label
slot (`if (period.label) { … push/assign … }`): an absent or empty label is
dropped. -/
def truthyLabel (l : Option String) : Option String :=
  match l with
  | some s => if s = "" then none else some s
  | none => none

/-- The discrete-dates branch of the encoder (`else if (period.dates &&
period.color)`), reached when the range branch did not fire.  The date list
is mapped to units and sorted ascending (`.sort((a, b) => a - b)`, modelled
by a stable ascending sort); a singleton is emitted directly, otherwise the
wire carries `[base, …base-relative deltas]`.  The delta division
`(date - baseDate) / (86400000 / 100000)` is exact because every unit value
is `864 * day`; it is written as flooring division.  An empty `dates` list
makes the JS read `sortedDates[0]!` yield `undefined`, which
`JSON.stringify` turns into `null` and the decoder's arithmetic into `0`;
that unreachable-for-valid-configs slot is modelled as `0` directly. -/
def compressDates (p : HighlightPeriod) : CompressedPeriod :=
  match p.dates with
  | some ds =>
    if p.color ≠ "" then
      let sortedDates := (ds.map dateToUnits).insertionSort (fun a b => a ≤ b)
      match sortedDates with
      | [u] => CompressedPeriod.single u p.color (truthyLabel p.label)
      | u :: rest =>
          CompressedPeriod.multi
            (u :: rest.map (fun date => Int.fdiv (date - u) (Int.fdiv 86400000 100000)))
            p.color (truthyLabel p.label)
      | [] => CompressedPeriod.multi [0] p.color (truthyLabel p.label)
    else CompressedPeriod.raw p
  | none => CompressedPeriod.raw p

/-- Per-period encoder inside `compressYAML`: the range branch fires when
`period.start && period.end && period.color` are all truthy (for the
day-index model, when both endpoints are present and the color is not the
empty string), otherwise the discrete branch or the passthrough. -/
def compressPeriod (p : HighlightPeriod) : CompressedPeriod :=
  match p.start, p.stop with
  | some s, some e =>
    if p.color ≠ "" then
      CompressedPeriod.range (dateToUnits s)
        (ceilDiv (e * 86400000 - s * 86400000) 86400000)
        p.color (truthyLabel p.label)
    else compressDates p
  | _, _ => compressDates p

/-- The body of `compressYAML` after YAML parsing: years become
`year - 2024` offsets (order preserved), periods are encoded positionally
(order preserved), the timezone is appended only when truthy and different
from the sentinel `"auto"`.  Positions 0 and 1 keep their `[]`
initialisation when the corresponding field is absent. -/
def compressConfig (c : CalendarConfig) : CompressedData :=
  { years :=
      match c.years with
      | some ys => ys.map (fun year => year - 2024)
      | none => []
    periods :=
      match c.highlightPeriods with
      | some ps => ps.map compressPeriod
      | none => []
    timezone :=
      match c.timezone with
      | some t => if t ≠ "" ∧ t ≠ "auto" then some t else none
      | none => none }

/-- `dates.push` chain of the decoder's multiple-dates branch: each delta is
added to the *previously reconstructed* date (`new Date(new
Date(dates[dates.length - 1]).getTime() + diff * 86400000)`), not to the
base. -/
def chainDays (prev : Day) : List Int → List Day
  | [] => []
  | diff :: rest => (prev + diff) :: chainDays (prev + diff) rest

/-- Per-period decoder inside `decompressJSON`.  `none` models a thrown
exception: an empty inner array makes `period[0][0]! * 100000` evaluate to
`NaN` and `new Date(NaN).toISOString()` throw a `RangeError`, which aborts
the whole decompression. -/
def decompressPeriod : CompressedPeriod → Option HighlightPeriod
  | CompressedPeriod.range su dd c l =>
      some { start := some (msToDay (su * 100000))
             stop := some (msToDay (su * 100000 + dd * 24 * 60 * 60 * 1000))
             dates := none, color := c, label := truthyLabel l }
  | CompressedPeriod.single u c l =>
      some { start := none, stop := none
             dates := some [msToDay (u * 100000)]
             color := c, label := truthyLabel l }
  | CompressedPeriod.multi [] _ _ => none
  | CompressedPeriod.multi (b :: diffs) c l =>
      let base := msToDay (b * 100000)
      some { start := none, stop := none
             dates := some (base :: chainDays base diffs)
             color := c, label := truthyLabel l }
  | CompressedPeriod.raw p => some p

/-- The body of `decompressJSON` on well-shaped compressed data (the JSON
layer is modelled separately).  Positions 0 and 1 are arrays, hence truthy,
so `years` and `highlightPeriods` are always set; the timezone is restored
only when position 2 is truthy.  A throwing period decoder aborts the whole
operation (`none`). -/
def decompressConfig (d : CompressedData) : Option CalendarConfig := do
  let ps ← d.periods.mapM decompressPeriod
  some { years := some (d.years.map (fun yearDistance => yearDistance + 2024))
         highlightPeriods := some ps
         timezone :=
           match d.timezone with
           | some t => if t ≠ "" then some t else none
           | none => none }

end Calendar

namespace Calendar

lemma dateToUnits_eq (d : Day) : dateToUnits d = 864 * d := by
  unfold dateToUnits
  rw [show d * 86400000 = (864 * d) * 100000 by ring]
  exact Int.mul_fdiv_cancel _ (by norm_num)

lemma msToDay_mul (d : Day) : msToDay (d * 86400000) = d := by
  unfold msToDay
  exact Int.mul_fdiv_cancel _ (by norm_num)

lemma ceilDiv_mul (a b : Int) (hb : b ≠ 0) : ceilDiv (a * b) b = a := by
  unfold ceilDiv
  rw [show -(a * b) = (-a) * b by ring, Int.mul_fdiv_cancel _ hb]
  ring

lemma truthyLabel_eq_self {l : Option String} (hl : l ≠ some "") : truthyLabel l = l := by
  match l with
  | none => rfl
  | some s =>
    have hs : s ≠ "" := fun h => hl (by rw [h])
    simp [truthyLabel, hs]

/-- A period in range form: both endpoints present and no discrete dates. -/
def isRangeForm (p : HighlightPeriod) : Bool :=
  p.start.isSome && p.stop.isSome && p.dates == none

/-- A period in single-date discrete form: exactly one discrete date and no
range endpoints. -/
def isSingleDateForm (p : HighlightPeriod) : Bool :=
  p.start == none && p.stop == none &&
    match p.dates with
    | some [_] => true
    | _ => false


lemma decompressPeriod_compressPeriod (p : HighlightPeriod)
    (hform : isRangeForm p = true ∨ isSingleDateForm p = true)
    (hlabel : p.label ≠ some "") :
    decompressPeriod (compressPeriod p) = some p := by
  obtain ⟨s, e, ds, c, l⟩ := p
  simp only [isRangeForm, isSingleDateForm, Bool.and_eq_true, beq_iff_eq,
    Option.isSome_iff_exists] at hform
  simp only [ne_eq] at hlabel
  rcases hform with ⟨⟨⟨sv, hs⟩, ⟨ev, he⟩⟩, hd⟩ | ⟨⟨hs, he⟩, hd⟩
  · -- range form
    subst hs he hd
    by_cases hc : c = ""
    · subst hc
      simp [compressPeriod, compressDates, decompressPeriod]
    · simp only [compressPeriod, hc, ne_eq, not_false_iff, if_true, decompressPeriod]
      rw [dateToUnits_eq]
      rw [show ev * 86400000 - sv * 86400000 = (ev - sv) * 86400000 by ring]
      rw [ceilDiv_mul _ _ (by norm_num)]
      rw [show 864 * sv * 100000 = sv * 86400000 by ring]
      rw [show sv * 86400000 + (ev - sv) * 24 * 60 * 60 * 1000 = ev * 86400000 by ring]
      rw [msToDay_mul, msToDay_mul, truthyLabel_eq_self hlabel, truthyLabel_eq_self hlabel]
  · -- single-date discrete form
    subst hs he
    match ds, hd with
    | some [dv], _ =>
      by_cases hc : c = ""
      · subst hc
        simp [compressPeriod, compressDates, decompressPeriod]
      · simp only [compressPeriod, compressDates, hc, ne_eq, not_false_iff, if_true,
          List.map_cons, List.map_nil, List.insertionSort, List.orderedInsert,
          decompressPeriod]
        rw [dateToUnits_eq, show 864 * dv * 100000 = dv * 86400000 by ring,
          msToDay_mul, truthyLabel_eq_self hlabel]
        rw [truthyLabel_eq_self hlabel]

lemma mapM_decompress_compress (ps : List HighlightPeriod)
    (hps : ∀ p ∈ ps, (isRangeForm p = true ∨ isSingleDateForm p = true) ∧ p.label ≠ some "") :
    (ps.map compressPeriod).mapM decompressPeriod = some ps := by
  induction ps with
  | nil => rfl
  | cons p rest ih =>
    have hp := hps p (by simp)
    rw [List.map_cons, List.mapM_cons,
      decompressPeriod_compressPeriod p hp.1 hp.2,
      ih (fun q hq => hps q (by simp [hq]))]
    rfl

/-- C1 (amended): for configs with `years` and `highlightPeriods` present,
whose periods are all range-form or single-date discrete-form with no
empty-string label, and whose timezone is not the empty string,
decompressing the compression reproduces the config exactly except that an
`"auto"` timezone becomes absent. -/
theorem roundTrip_config (ys : List Int) (ps : List HighlightPeriod) (tz : Option String)
    (hps : ∀ p ∈ ps, (isRangeForm p = true ∨ isSingleDateForm p = true) ∧ p.label ≠ some "")
    (htz : tz ≠ some "") :
    decompressConfig (compressConfig ⟨some ys, some ps, tz⟩) =
      some ⟨some ys, some ps, if tz = some "auto" then none else tz⟩ := by
  have hbody : decompressConfig (compressConfig ⟨some ys, some ps, tz⟩) =
      ((ps.map compressPeriod).mapM decompressPeriod).bind (fun ps2 =>
        some { years := some ((ys.map (fun year => year - 2024)).map
                  (fun yearDistance => yearDistance + 2024))
               highlightPeriods := some ps2
               timezone :=
                 match (compressConfig ⟨some ys, some ps, tz⟩).timezone with
                 | some t => if t ≠ "" then some t else none
                 | none => none }) := rfl
  rw [hbody, mapM_decompress_compress ps hps, Option.some_bind]
  have hyears : (ys.map (fun year => year - 2024)).map (fun yd => yd + 2024) = ys := by
    rw [List.map_map]
    have hid : ((fun yd => yd + 2024) ∘ fun year => year - 2024) = (id : Int → Int) := by
      funext x
      simp
    rw [hid, List.map_id]
  rw [hyears]
  match tz, htz with
  | none, _ => rfl
  | some t, htz =>
    have ht : t ≠ "" := fun h => htz (by rw [h])
    have hcomp : (compressConfig ⟨some ys, some ps, some t⟩).timezone =
        if t = "auto" then none else some t := by
      show (if t ≠ "" ∧ t ≠ "auto" then some t else none) = _
      by_cases ha : t = "auto"
      · rw [if_neg (by simp [ha]), if_pos ha]
      · rw [if_pos ⟨ht, ha⟩, if_neg ha]
    rw [hcomp]
    by_cases ha : t = "auto"
    · subst ha
      rw [if_pos rfl, if_pos rfl]
    · rw [if_neg ha, if_neg (fun h => ha (by injection h))]
      have hm : (match some t with
          | some u => if u ≠ "" then some u else none
          | none => none) = some t := by
        show (if t ≠ "" then some t else none) = some t
        rw [if_pos ht]
      rw [hm]

/-- C1 witness: the spec's single-date example — one discrete-date period
`{dates:["2025-01-13"], color:"#ff6b6b"}` (2025-01-13 is day 20101) with
`years:[2025]` round-trips unchanged. -/
theorem roundTrip_config_witness :
    decompressConfig (compressConfig
        ⟨some [2025], some [⟨none, none, some [20101], "#ff6b6b", none⟩], none⟩) =
      some ⟨some [2025], some [⟨none, none, some [20101], "#ff6b6b", none⟩], none⟩ := by
  have h := roundTrip_config [2025] [⟨none, none, some [20101], "#ff6b6b", none⟩] none
    (by decide) (by decide)
  simpa using h

/-- C1 counterexample: a range period (2025-01-10 .. 2025-01-20, days
20098..20108) carrying the empty-string label `""` — a legal value for the
optional `label: string` field — loses the label in the round trip because
both codec directions guard the label slot with a JS truthiness test, so the
output differs from the input even though no `"auto"` timezone is involved. -/
theorem roundTrip_config_cex :
    decompressConfig (compressConfig
        ⟨some [2025], some [⟨some 20098, some 20108, none, "#ff0000", some ""⟩], none⟩) =
      some ⟨some [2025], some [⟨some 20098, some 20108, none, "#ff0000", none⟩], none⟩ ∧
    (⟨some [2025], some [⟨some 20098, some 20108, none, "#ff0000", none⟩], none⟩ :
        CalendarConfig) ≠
      ⟨some [2025], some [⟨some 20098, some 20108, none, "#ff0000", some ""⟩], none⟩ := by
  exact ⟨by decide, by decide⟩

/-- C2 (code bug): for the three non-uniformly spaced dates 2025-01-01,
2025-01-02 and 2025-01-04 (days 20089, 20090, 20092) the encoder emits the
base-relative deltas `[1, 3]` (unit 17356896 = 864 · 20089), but the decoder
chain-adds each delta to the previously reconstructed date and returns
2025-01-01, 2025-01-02, 2025-01-05 — the cumulative chain reconstruction
does not match the forward encoding, so the original dates are not
recovered. -/
theorem multiDate_chain_mismatch :
    compressPeriod ⟨none, none, some [20089, 20090, 20092], "#ff6b6b", none⟩ =
      CompressedPeriod.multi [17356896, 1, 3] "#ff6b6b" none ∧
    decompressPeriod (CompressedPeriod.multi [17356896, 1, 3] "#ff6b6b" none) =
      some ⟨none, none, some [20089, 20090, 20093], "#ff6b6b", none⟩ ∧
    decompressPeriod (compressPeriod ⟨none, none, some [20089, 20090, 20092], "#ff6b6b", none⟩) ≠
      some ⟨none, none, some [20089, 20090, 20092], "#ff6b6b", none⟩ := by
  refine ⟨by decide, by decide, by decide⟩

/-- C6: compression maps each year to `year - 2024` in input order,
decompression maps each offset back to `offset + 2024`; in particular
`years:[2025]` compresses to offset `[1]` and offset `[1]` decompresses to
`[2025]`. -/
theorem year_offset_codec :
    (∀ (ys : List Int) (hp : Option (List HighlightPeriod)) (tz : Option String),
        (compressConfig ⟨some ys, hp, tz⟩).years = ys.map (fun year => year - 2024)) ∧
    (∀ (d : CompressedData) (cfg : CalendarConfig),
        decompressConfig d = some cfg →
        cfg.years = some (d.years.map (fun yearDistance => yearDistance + 2024))) ∧
    (compressConfig ⟨some [2025], none, none⟩).years = [1] ∧
    decompressConfig ⟨[1], [], none⟩ = some ⟨some [2025], some [], none⟩ := by
  refine ⟨fun ys hp tz => rfl, ?_, by decide, by decide⟩
  intro d cfg h
  unfold decompressConfig at h
  obtain ⟨ps, hm, hcfg⟩ := Option.bind_eq_some.mp h
  have hc := Option.some.inj hcfg
  subst hc
  rfl

/-- C6 witness: the second conjunct applied to the concrete compressed data
`[[1],[]]`. -/
theorem year_offset_codec_witness :
    (⟨some [2025], some [], none⟩ : CalendarConfig).years =
      some (([1] : List Int).map (fun yearDistance => yearDistance + 2024)) :=
  year_offset_codec.2.1 ⟨[1], [], none⟩ ⟨some [2025], some [], none⟩ (by decide)

/-- C7 counterexample: a present timezone that is the empty string is not
equal to `"auto"`, yet the encoder drops it — the `parsedData.timezone &&
parsedData.timezone !== 'auto'` guard is a truthiness test, not a presence
test. -/
theorem timezone_codec_cex :
    (compressConfig ⟨some [2025], some [], some ""⟩).timezone = none ∧
    (some "" : Option String) ≠ none ∧ ("" : String) ≠ "auto" := by
  refine ⟨by decide, by decide, by decide⟩

/-- C7 (amended): the timezone is appended as the third element exactly when
it is present, non-empty and different from `"auto"`; decompression restores
the field exactly when the third element is present and non-empty; hence a
config whose timezone is `"auto"` decompresses with no timezone field. -/
theorem timezone_codec_amended :
    (∀ (c : CalendarConfig) (t : String),
        (compressConfig c).timezone = some t ↔
          c.timezone = some t ∧ t ≠ "" ∧ t ≠ "auto") ∧
    (∀ (d : CompressedData) (cfg : CalendarConfig) (t : String),
        decompressConfig d = some cfg →
        (cfg.timezone = some t ↔ d.timezone = some t ∧ t ≠ "")) ∧
    (∀ (c cfg : CalendarConfig), c.timezone = some "auto" →
        decompressConfig (compressConfig c) = some cfg → cfg.timezone = none) := by
  refine ⟨?_, ?_, ?_⟩
  · intro c t
    obtain ⟨ys, hp, tz⟩ := c
    cases tz with
    | none => simp [compressConfig]
    | some u =>
      show (if u ≠ "" ∧ u ≠ "auto" then some u else none) = some t ↔ _
      by_cases hu : u ≠ "" ∧ u ≠ "auto"
      · rw [if_pos hu]
        constructor
        · intro h
          have hut := Option.some.inj h
          subst hut
          exact ⟨rfl, hu.1, hu.2⟩
        · intro h
          exact h.1
      · rw [if_neg hu]
        constructor
        · intro h
          exact absurd h (by simp)
        · intro h
          have hut := Option.some.inj h.1
          subst hut
          exact absurd ⟨h.2.1, h.2.2⟩ hu
  · intro d cfg t h
    unfold decompressConfig at h
    obtain ⟨ps, hm, hcfg⟩ := Option.bind_eq_some.mp h
    have hc := Option.some.inj hcfg
    subst hc
    show (match d.timezone with
        | some u => if u ≠ "" then some u else none
        | none => none) = some t ↔ _
    cases htz : d.timezone with
    | none => simp
    | some u =>
      show (if u ≠ "" then some u else none) = some t ↔ _
      by_cases hu : u = ""
      · subst hu
        rw [if_neg (by simp)]
        constructor
        · intro hcontra
          exact absurd hcontra (by simp)
        · intro hcontra
          have := Option.some.inj hcontra.1
          exact absurd this.symm hcontra.2
      · rw [if_pos hu]
        constructor
        · intro h2
          have hut := Option.some.inj h2
          subst hut
          exact ⟨rfl, hu⟩
        · intro h2
          exact h2.1
  · intro c cfg ha h
    obtain ⟨ys, hp, tz⟩ := c
    have htzc : tz = some "auto" := ha
    subst htzc
    have hnone : (compressConfig ⟨ys, hp, some "auto"⟩).timezone = none := by
      show (if "auto" ≠ "" ∧ "auto" ≠ "auto" then some "auto" else none) = none
      rw [if_neg (by simp)]
    unfold decompressConfig at h
    obtain ⟨ps, hm, hcfg⟩ := Option.bind_eq_some.mp h
    have hc := Option.some.inj hcfg
    subst hc
    show (match (compressConfig ⟨ys, hp, some "auto"⟩).timezone with
        | some u => if u ≠ "" then some u else none
        | none => none) = none
    rw [hnone]

/-- C7 witness: the third conjunct applied to a concrete `"auto"` config. -/
theorem timezone_codec_amended_witness :
    (⟨some [2025], some [], none⟩ : CalendarConfig).timezone = none :=
  timezone_codec_amended.2.2 ⟨some [2025], some [], some "auto"⟩
    ⟨some [2025], some [], none⟩ rfl (by decide)

/-! ## Period resolver (`normalizePeriods`, `getColorsForDate`)

`parseDateInTimezone` resolves a `YYYY-MM-DD` string to midnight of that
calendar day in the configured zone (`luxon.DateTime.fromISO(dateStr,
{zone}).startOf('day').toJSDate()`).  Within one render pass every `Date`
the resolver compares — period endpoints, discrete dates and the iterated
calendar days — is such a midnight in the same frame, so millisecond
comparison of those `Date`s coincides with comparison of their day indices;
dates are therefore modelled by their day index and the parse capability
preserves it. -/

/-- `NormalizedPeriod` (src/types.ts): the raw period plus its original
index `order` and the resolved `Date` fields. -/
structure NormalizedPeriod extends HighlightPeriod where
  order : Nat
  startDate : Option Day
  endDate : Option Day
  dateObjects : Option (List Day)
  deriving DecidableEq, Repr

/-- The timezone-aware parse capability in the day-index model (see the
section comment). -/
def parseDateInTimezone (dateStr : Day) (_timezone : String) : Day := dateStr

/-- `normalizePeriods(periods, timezone)`: spread the period, attach the
index as `order`, resolve whichever date fields are present. -/
def normalizePeriods (periods : List HighlightPeriod) (timezone : String) :
    List NormalizedPeriod :=
  periods.mapIdx (fun index period =>
    { toHighlightPeriod := period
      order := index
      startDate := period.start.map (fun s => parseDateInTimezone s timezone)
      endDate := period.stop.map (fun e => parseDateInTimezone e timezone)
      dateObjects := period.dates.map (fun ds =>
        ds.map (fun dateStr => parseDateInTimezone dateStr timezone)) })

/-- The per-period match test of `getColorsForDate`'s loop body: a period
with both `startDate` and `endDate` (truthy `Date` objects) matches when
`startDate ≤ date ≤ endDate`; otherwise a period with `dateObjects` matches
when some element has the same instant; otherwise no match. -/
def matchesDate (date : Day) (period : NormalizedPeriod) : Bool :=
  match period.startDate, period.endDate with
  | some s, some e => s ≤ date ∧ date ≤ e
  | _, _ =>
    match period.dateObjects with
    | some ds => ds.any (fun dObj => date == dObj)
    | none => false

/-- The loop of `getColorsForDate`, with `i` the current index.  A matching
range period pushes its color and records `i` in the used-periods set; a
discrete period scans its `dateObjects` and pushes/records at the first
equal instant (the `break` makes further duplicates irrelevant, so the scan
is a membership test). -/
def getColorsGo (date : Day) : List NormalizedPeriod → Nat → Finset Nat →
    List String × Finset Nat
  | [], _, usedPeriods => ([], usedPeriods)
  | period :: rest, i, usedPeriods =>
    match period.startDate, period.endDate with
    | some s, some e =>
      if s ≤ date ∧ date ≤ e then
        let r := getColorsGo date rest (i + 1) (insert i usedPeriods)
        (period.color :: r.1, r.2)
      else getColorsGo date rest (i + 1) usedPeriods
    | _, _ =>
      match period.dateObjects with
      | some ds =>
        if ds.any (fun dObj => date == dObj) then
          let r := getColorsGo date rest (i + 1) (insert i usedPeriods)
          (period.color :: r.1, r.2)
        else getColorsGo date rest (i + 1) usedPeriods
      | none => getColorsGo date rest (i + 1) usedPeriods

/-- `getColorsForDate(date, periods, usedPeriods)`: returns the matched
colors in iteration order; the mutation of the `usedPeriods` set is modelled
by returning the updated set. -/
def getColorsForDate (date : Day) (periods : List NormalizedPeriod)
    (usedPeriods : Finset Nat) : List String × Finset Nat :=
  getColorsGo date periods 0 usedPeriods

/-- The list of indices (starting at `i`) of the periods matching `date`, in
iteration order. -/
def matchedIdxList (date : Day) : List NormalizedPeriod → Nat → List Nat
  | [], _ => []
  | period :: rest, i =>
    (if matchesDate date period then [i] else []) ++ matchedIdxList date rest (i + 1)

lemma getColorsGo_spec (date : Day) (ps : List NormalizedPeriod) :
    ∀ (i : Nat) (used : Finset Nat),
      getColorsGo date ps i used =
        ((ps.filter (matchesDate date)).map (fun p => p.color),
          used ∪ (matchedIdxList date ps i).toFinset) := by
  induction ps with
  | nil =>
    intro i used
    simp [getColorsGo, matchedIdxList]
  | cons p rest ih =>
    intro i used
    have hstep : getColorsGo date (p :: rest) i used =
        if matchesDate date p then
          (p.color :: (getColorsGo date rest (i + 1) (insert i used)).1,
            (getColorsGo date rest (i + 1) (insert i used)).2)
        else getColorsGo date rest (i + 1) used := by
      rcases hs : p.startDate with _ | s <;> rcases he : p.endDate with _ | e <;>
        rcases hd : p.dateObjects with _ | ds <;>
          simp [getColorsGo, matchesDate, hs, he, hd]
    rw [hstep]
    by_cases hm : matchesDate date p = true
    · rw [if_pos hm, ih]
      simp only [List.filter_cons, hm, if_true, List.map_cons, matchedIdxList,
        List.toFinset_append, List.toFinset_cons, List.toFinset_nil]
      refine Prod.ext rfl ?_
      ext x
      simp only [Finset.mem_insert, Finset.mem_union, Finset.mem_singleton]
      tauto
    · rw [if_neg hm, ih]
      simp [List.filter_cons, hm, matchedIdxList]

instance : Inhabited NormalizedPeriod :=
  ⟨⟨⟨none, none, none, "", none⟩, 0, none, none, none⟩⟩

lemma matchedIdxList_ge (date : Day) :
    ∀ (ps : List NormalizedPeriod) (i j : Nat), j ∈ matchedIdxList date ps i → i ≤ j := by
  intro ps
  induction ps with
  | nil =>
    intro i j h
    simp [matchedIdxList] at h
  | cons p rest ih =>
    intro i j h
    simp only [matchedIdxList, List.mem_append] at h
    rcases h with h | h
    · by_cases hm : matchesDate date p = true
      · rw [if_pos hm] at h
        simp at h
        omega
      · rw [if_neg hm] at h
        simp at h
    · have := ih (i + 1) j h
      omega

lemma matchedIdxList_sorted (date : Day) :
    ∀ (ps : List NormalizedPeriod) (i : Nat),
      List.Sorted (fun a b => a < b) (matchedIdxList date ps i) := by
  intro ps
  induction ps with
  | nil =>
    intro i
    simp [matchedIdxList]
  | cons p rest ih =>
    intro i
    by_cases hm : matchesDate date p = true
    · simp only [matchedIdxList, if_pos hm, List.singleton_append, List.sorted_cons]
      exact ⟨fun b hb => lt_of_lt_of_le (by omega) (matchedIdxList_ge date rest (i + 1) b hb),
        ih (i + 1)⟩
    · simp only [matchedIdxList, if_neg hm, List.nil_append]
      exact ih (i + 1)

lemma matchedIdxList_mem_iff (date : Day) :
    ∀ (ps : List NormalizedPeriod) (i k : Nat),
      (i + k) ∈ matchedIdxList date ps i ↔
        ∃ h : k < ps.length, matchesDate date (ps.get ⟨k, h⟩) = true := by
  intro ps
  induction ps with
  | nil =>
    intro i k
    simp [matchedIdxList]
  | cons p rest ih =>
    intro i k
    simp only [matchedIdxList, List.mem_append]
    cases k with
    | zero =>
      constructor
      · rintro (h | h)
        · by_cases hm : matchesDate date p = true
          · exact ⟨by simp, by simpa using hm⟩
          · rw [if_neg hm] at h
            simp at h
        · have := matchedIdxList_ge date rest (i + 1) (i + 0) h
          omega
      · rintro ⟨h, hm⟩
        left
        rw [if_pos (by simpa using hm)]
        simp
    | succ k2 =>
      have heq : i + (k2 + 1) = (i + 1) + k2 := by omega
      constructor
      · rintro (h | h)
        · by_cases hm : matchesDate date p = true
          · rw [if_pos hm] at h
            simp at h
          · rw [if_neg hm] at h
            simp at h
        · rw [heq] at h
          obtain ⟨hlt, hm⟩ := (ih (i + 1) k2).mp h
          exact ⟨by simpa using Nat.succ_lt_succ hlt, by simpa using hm⟩
      · rintro ⟨hlt, hm⟩
        right
        rw [heq]
        have hlt2 : k2 < rest.length := by simpa using hlt
        refine (ih (i + 1) k2).mpr ⟨hlt2, ?_⟩
        simpa using hm

lemma matchedIdxList_map_color (date : Day) :
    ∀ (ps : List NormalizedPeriod) (i : Nat) (g : Nat → NormalizedPeriod),
      (∀ k (h : k < ps.length), g (i + k) = ps.get ⟨k, h⟩) →
      (matchedIdxList date ps i).map (fun j => (g j).color) =
        (ps.filter (matchesDate date)).map (fun p => p.color) := by
  intro ps
  induction ps with
  | nil =>
    intro i g hg
    simp [matchedIdxList]
  | cons p rest ih =>
    intro i g hg
    have hgp : g i = p := by
      have := hg 0 (by simp)
      simpa using this
    have hgr : ∀ k (h : k < rest.length), g ((i + 1) + k) = rest.get ⟨k, h⟩ := by
      intro k h
      have h2 := hg (k + 1) (by simpa using Nat.succ_lt_succ h)
      rw [show i + (k + 1) = (i + 1) + k by omega] at h2
      simpa using h2
    by_cases hm : matchesDate date p = true
    · simp only [matchedIdxList, if_pos hm, List.singleton_append, List.map_cons,
        List.filter_cons, hm, if_true]
      rw [hgp, ih (i + 1) g hgr]
    · simp only [matchedIdxList, if_neg hm, List.nil_append, List.filter_cons]
      rw [ih (i + 1) g hgr]

lemma matchedIdxList_eq_nil (date : Day) :
    ∀ (ps : List NormalizedPeriod), (∀ p ∈ ps, matchesDate date p = false) →
      ∀ i, matchedIdxList date ps i = [] := by
  intro ps
  induction ps with
  | nil =>
    intro _ i
    rfl
  | cons p rest ih =>
    intro h i
    have hm : matchesDate date p = false := h p (by simp)
    simp only [matchedIdxList, hm, Bool.false_eq_true, if_false, List.nil_append]
    exact ih (fun q hq => h q (by simp [hq])) (i + 1)

/-- The normalized range period [2025-01-10, 2025-01-20] (days 20098..20108)
of the spec's boundary instance. -/
def rangeJanP : NormalizedPeriod :=
  ⟨⟨some 20098, some 20108, none, "#ff0000", none⟩, 0, some 20098, some 20108, none⟩

/-- The normalized discrete period `dates: ["2025-01-13","2025-02-14"]`
(days 20101 and 20133) of the spec's exact-match instance. -/
def discreteJanFebP : NormalizedPeriod :=
  ⟨⟨none, none, some [20101, 20133], "#ff6b6b", none⟩, 0, none, none, some [20101, 20133]⟩

/-- C3: `getColorsForDate` collects exactly the periods passing the match
test, which holds for a range-form period iff `startDate ≤ date ≤ endDate`
(both endpoints inclusive, day-index comparison) and for a discrete-form
period iff the date equals some resolved instant; the range
[2025-01-10, 2025-01-20] matches exactly days 20098..20108 and the discrete
list ["2025-01-13","2025-02-14"] matches exactly those two days, so
2025-01-14 (day 20102) does not match. -/
theorem colorsForDate_match_semantics :
    (∀ (date : Day) (ps : List NormalizedPeriod) (used : Finset Nat),
        (getColorsForDate date ps used).1 =
          (ps.filter (matchesDate date)).map (fun p => p.color)) ∧
    (∀ (date : Day) (p : NormalizedPeriod),
        matchesDate date p = true ↔
          ((∃ s e, p.startDate = some s ∧ p.endDate = some e ∧ s ≤ date ∧ date ≤ e) ∨
            ((p.startDate = none ∨ p.endDate = none) ∧
              ∃ ds, p.dateObjects = some ds ∧ date ∈ ds))) ∧
    (∀ d : Day, matchesDate d rangeJanP = true ↔ 20098 ≤ d ∧ d ≤ 20108) ∧
    (∀ d : Day, matchesDate d discreteJanFebP = true ↔ d = 20101 ∨ d = 20133) ∧
    matchesDate 20102 discreteJanFebP = false := by
  refine ⟨?_, ?_, ?_, ?_, by decide⟩
  · intro date ps used
    rw [getColorsForDate, getColorsGo_spec]
  · intro date p
    obtain ⟨hp, o, sd, ed, dobj⟩ := p
    rcases sd with _ | s <;> rcases ed with _ | e <;> rcases dobj with _ | ds <;>
      simp [matchesDate, List.any_eq_true]
  · intro d
    show (decide (20098 ≤ d ∧ d ≤ 20108)) = true ↔ _
    simp
  · intro d
    show ([20101, 20133] : List Day).any (fun dObj => d == dObj) = true ↔ _
    simp [List.any_eq_true]

/-- C4: the i-th normalized period's `order` field is `i`; the colors
returned by `getColorsForDate` list the matching periods' colors indexed by
a strictly ascending list of exactly the matching original indices; the
spec's two overlapping range periods A (2024-01-01..2024-01-31, `#ff0000`)
and B (2024-01-15..2024-02-15, `#00ff00`) both match 2024-01-20 (day
19742), in that order, and indices 0 and 1 are both recorded. -/
theorem order_preservation :
    (∀ (ps : List HighlightPeriod) (tz : String) (i : Nat)
        (h : i < (normalizePeriods ps tz).length),
        ((normalizePeriods ps tz).get ⟨i, h⟩).order = i) ∧
    (∀ (date : Day) (ps : List NormalizedPeriod) (used : Finset Nat),
        List.Sorted (fun a b => a < b) (matchedIdxList date ps 0) ∧
        (getColorsForDate date ps used).1 =
          (matchedIdxList date ps 0).map (fun j => (ps.getD j default).color) ∧
        (∀ j : Nat, j ∈ matchedIdxList date ps 0 ↔
            ∃ h : j < ps.length, matchesDate date (ps.get ⟨j, h⟩) = true)) ∧
    (getColorsForDate 19742 (normalizePeriods
        [⟨some 19723, some 19753, none, "#ff0000", none⟩,
          ⟨some 19737, some 19768, none, "#00ff00", none⟩] "UTC") ∅ =
      (["#ff0000", "#00ff00"], {0, 1})) := by
  refine ⟨?_, ?_, by decide⟩
  · intro ps tz i h
    unfold normalizePeriods
    simp only [List.get_eq_getElem, List.getElem_mapIdx]
  · intro date ps used
    refine ⟨matchedIdxList_sorted date ps 0, ?_, ?_⟩
    · rw [getColorsForDate, getColorsGo_spec]
      rw [matchedIdxList_map_color date ps 0 (fun j => ps.getD j default) ?_]
      intro k h
      simp [List.getD_eq_getElem?_getD, List.getElem?_eq_getElem h]
    · intro j
      have := matchedIdxList_mem_iff date ps 0 j
      simpa using this

/-- C4 witness: the first conjunct applied to a concrete one-period config
(index 0). -/
theorem order_preservation_witness :
    ((normalizePeriods [⟨some 19723, some 19753, none, "#ff0000", none⟩] "UTC").get
        ⟨0, by decide⟩).order = 0 :=
  order_preservation.1 [⟨some 19723, some 19753, none, "#ff0000", none⟩] "UTC" 0 (by decide)

/-- C8: a date matching no period yields an empty color list and leaves the
used-periods set unchanged; in general the returned set is exactly the input
set united with the matching indices — the function's only effect.  (In this
pure embedding the input list and periods are values and cannot be mutated;
the returned pair is the function's entire observable behaviour.) -/
theorem empty_colors_frame :
    ∀ (date : Day) (ps : List NormalizedPeriod) (used : Finset Nat),
      ((∀ p ∈ ps, matchesDate date p = false) →
        (getColorsForDate date ps used).1 = [] ∧
        (getColorsForDate date ps used).2 = used) ∧
      (getColorsForDate date ps used).2 =
        used ∪ (matchedIdxList date ps 0).toFinset := by
  intro date ps used
  constructor
  · intro h
    rw [getColorsForDate, getColorsGo_spec, matchedIdxList_eq_nil date ps h 0]
    have hnil : ps.filter (matchesDate date) = [] := by
      rw [List.filter_eq_nil_iff]
      intro a ha
      simp [h a ha]
    rw [hnil]
    exact ⟨rfl, by simp⟩
  · rw [getColorsForDate, getColorsGo_spec]

/-- C8 witness: day 20200 (2025-04-13) lies outside the range period
[2025-01-10, 2025-01-20], so nothing matches and the set is untouched. -/
theorem empty_colors_frame_witness :
    (getColorsForDate 20200 [rangeJanP] ∅).1 = [] ∧
    (getColorsForDate 20200 [rangeJanP] ∅).2 = ∅ :=
  (empty_colors_frame 20200 [rangeJanP] ∅).1 (by decide)

/-- C9: each period contributes its color at most once per call — the color
list is one entry per matching period, hence never longer than the period
list — and a discrete period whose resolved dates contain the same day three
times still pushes a single color (the scan breaks at the first match). -/
theorem discrete_color_once :
    (∀ (date : Day) (ps : List NormalizedPeriod) (used : Finset Nat),
        (getColorsForDate date ps used).1.length ≤ ps.length) ∧
    (∀ (date : Day) (p : NormalizedPeriod) (used : Finset Nat),
        (getColorsForDate date [p] used).1.length ≤ 1) ∧
    (getColorsForDate 20101
        [⟨⟨none, none, some [20101, 20101, 20101], "#ff6b6b", none⟩,
          0, none, none, some [20101, 20101, 20101]⟩] ∅ =
      (["#ff6b6b"], {0})) := by
  have hlen : ∀ (date : Day) (ps : List NormalizedPeriod) (used : Finset Nat),
      (getColorsForDate date ps used).1.length ≤ ps.length := by
    intro date ps used
    rw [getColorsForDate, getColorsGo_spec]
    simpa using List.length_filter_le (matchesDate date) ps
  exact ⟨hlen, fun date p used => hlen date [p] used, by decide⟩

/-! ## Runtime-value level: error behaviour of `compressYAML` and
`decompressJSON`

The two entry points wrap their whole body in `try`/`catch` and return
`null` on any exception.  To check that, the parsed input is modelled as a
JavaScript runtime value, exceptions as `Except`, and the `catch` as the
final `Option`.  Numbers are modelled by `Int` (every number calendar data
produces is integral); a date string is rendered as the decimal of its day
index. -/

/-- The JS runtime values reachable in the codec paths: JSON values plus
`undefined` (from reading a missing property or array slot) and `NaN` (from
a failed numeric coercion).  Objects carry string-keyed fields. -/
inductive JVal where
  | undef
  | jnull
  | jbool (b : Bool)
  | jnum (n : Int)
  | jnan
  | jstr (s : String)
  | jarr (elems : List JVal)
  | jobj (fields : List (String × JVal))

/-- JS truthiness: `undefined`, `null`, `false`, `0`, `NaN` and `""` are
falsy; arrays and objects are always truthy. -/
def JVal.truthy : JVal → Bool
  | .undef => false
  | .jnull => false
  | .jbool b => b
  | .jnum n => n ≠ 0
  | .jnan => false
  | .jstr s => s ≠ ""
  | .jarr _ => true
  | .jobj _ => true

/-- Array indexing `xs[i]`: an out-of-range slot yields `undefined`. -/
def jsIdx (xs : List JVal) (i : Nat) : JVal := xs.getD i JVal.undef

/-- Property access `v.name`: throws a `TypeError` on `null`/`undefined`,
reads the field (or `undefined`) on an object, and yields `undefined` on
other (auto-boxed) values.  Config objects are modelled with unique keys. -/
def getProp (v : JVal) (name : String) : Except Unit JVal :=
  match v with
  | .undef => Except.error ()
  | .jnull => Except.error ()
  | .jobj fields => Except.ok ((fields.lookup name).getD JVal.undef)
  | _ => Except.ok JVal.undef

/-- Decimal digit accumulator over a character list (`none` on a
non-digit). -/
def parseDigits : Nat → List Char → Option Nat
  | acc, [] => some acc
  | acc, c :: rest =>
    if c.isDigit then parseDigits (acc * 10 + (c.toNat - 48)) rest else none

/-- The integer reading of a string: decimal digits with an optional leading
minus sign, `none` otherwise. -/
def strToInt (s : String) : Option Int :=
  match s.data with
  | [] => none
  | '-' :: rest => (parseDigits 0 rest).map (fun n => -(n : Int))
  | l => (parseDigits 0 l).map (fun n => (n : Int))

/-- JS `ToNumber` on the reachable values, `none` meaning `NaN`: an integral
numeric string is its reading, the empty string is `0`; fractional readings,
surrounding whitespace, and exotic array/object coercions lie outside the
integer model and are mapped to `NaN`. -/
def jsToNumber : JVal → Option Int
  | .undef => none
  | .jnull => some 0
  | .jbool b => some (if b then 1 else 0)
  | .jnum n => some n
  | .jnan => none
  | .jstr s => if s.data.isEmpty then some 0 else strToInt s
  | .jarr _ => none
  | .jobj _ => none

/-- `typeof x === 'number'` (`NaN` is a number). -/
def isNumber : JVal → Bool
  | .jnum _ => true
  | .jnan => true
  | _ => false

/-- `new Date(ms).toISOString().split('T')[0]` where `ms` may be `NaN`
(`none`): `toISOString` throws a `RangeError` on an invalid date, otherwise
the UTC day index of the instant represents the date string. -/
def toISODay (ms : Option Int) : Except Unit Int :=
  match ms with
  | some v => Except.ok (Int.fdiv v 86400000)
  | none => Except.error ()

/-- `v * k` under JS numeric coercion (`none` = `NaN`). -/
def jsMulNum (v : JVal) (k : Int) : Option Int :=
  (jsToNumber v).map (fun n => n * k)

/-- A period as `decompressJSON` builds it: ranges and date lists carry day
indices standing for the ISO date strings; `color` and `label` keep whatever
runtime value their wire slot held (`color` is `undefined` when the array
was too short); a non-array wire value passes through unchanged. -/
inductive JPeriod where
  | rangeP (startDay : Int) (endDay : Int) (color : JVal) (label : Option JVal)
  | datesP (dates : List Int) (color : JVal) (label : Option JVal)
  | passP (v : JVal)

/-- The decoder's cumulative chain over the remaining inner elements: each
step re-parses the previous ISO date string (midnight, `prev * 86400000`)
and adds `diff * 86400000`; a non-numeric delta makes the sum `NaN` and the
`toISOString` call throw. -/
def chainDaysM (prev : Int) : List JVal → Except Unit (List Int)
  | [] => Except.ok []
  | d :: rest => do
    match jsToNumber d with
    | some n => do
      let nxt ← toISODay (some (prev * 86400000 + n * 86400000))
      let tail ← chainDaysM nxt rest
      Except.ok (nxt :: tail)
    | none => Except.error ()

/-- The per-period decoder of `decompressJSON`, dispatching on the runtime
shape of the wire value: two leading numbers = range; leading array =
multiple dates; other arrays = single date; non-arrays pass through. -/
def decompressPeriodM (p : JVal) : Except Unit JPeriod :=
  match p with
  | .jarr es =>
    if isNumber (jsIdx es 0) ∧ isNumber (jsIdx es 1) then do
      let startDay ← toISODay (jsMulNum (jsIdx es 0) 100000)
      let endDay ← toISODay
        (match jsMulNum (jsIdx es 0) 100000, jsToNumber (jsIdx es 1) with
          | some a, some b => some (a + b * 86400000)
          | _, _ => none)
      Except.ok (JPeriod.rangeP startDay endDay (jsIdx es 2)
        (if (jsIdx es 3).truthy then some (jsIdx es 3) else none))
    else
      match jsIdx es 0 with
      | .jarr inner => do
        let baseDay ← toISODay (jsMulNum (jsIdx inner 0) 100000)
        let tail ← chainDaysM baseDay (inner.drop 1)
        Except.ok (JPeriod.datesP (baseDay :: tail) (jsIdx es 1)
          (if (jsIdx es 2).truthy then some (jsIdx es 2) else none))
      | _ => do
        let day ← toISODay (jsMulNum (jsIdx es 0) 100000)
        Except.ok (JPeriod.datesP [day] (jsIdx es 1)
          (if (jsIdx es 2).truthy then some (jsIdx es 2) else none))
  | _ => Except.ok (JPeriod.passP p)

/-- `yearDistance + 2024` under JS `+`: a string concatenates, other values
coerce numerically. -/
def jsAddYear (v : JVal) : JVal :=
  match v with
  | .jstr s => .jstr (s ++ toString (2024 : Int))
  | _ =>
    match jsToNumber v with
    | some n => .jnum (n + 2024)
    | none => .jnan

/-- The decoded `Partial<CalendarConfig>` object as the decoder builds it. -/
structure JOut where
  years : Option (List JVal)
  highlightPeriods : Option (List JPeriod)
  timezone : Option JVal

/-- The body of `decompressJSON` after `JSON.parse` succeeded on the
re-wrapped string: the parse result is always an array (`xs` are its
elements); absent top-level elements are falsy `undefined`, so positions 0
and 1 are decoded only when present-and-truthy, calling `.map` on them
(a `TypeError` when the value is not an array). -/
def decompressBodyM (xs : List JVal) : Except Unit JOut := do
  let years ←
    if (jsIdx xs 0).truthy then
      match jsIdx xs 0 with
      | .jarr ys => Except.ok (some (ys.map jsAddYear))
      | _ => Except.error ()
    else Except.ok none
  let hps ←
    if (jsIdx xs 1).truthy then
      match jsIdx xs 1 with
      | .jarr ps => do
        let ds ← ps.mapM decompressPeriodM
        Except.ok (some ds)
      | _ => Except.error ()
    else Except.ok none
  Except.ok (JOut.mk years hps
    (if (jsIdx xs 2).truthy then some (jsIdx xs 2) else none))

def JVal.isUndef : JVal → Bool
  | .undef => true
  | _ => false

def JPeriod.colorUndef : JPeriod → Bool
  | .rangeP _ _ c _ => c.isUndef
  | .datesP _ c _ => c.isUndef
  | .passP _ => false

/-- `true` when the built object would make `jsyaml.dump` throw: js-yaml
without `skipInvalid` raises on `undefined` values, and the only `undefined`
reachable inside the built object is a missing color slot (labels and the
timezone are truthiness-guarded, and `JSON.parse` output contains no
`undefined`). -/
def dumpThrows (o : JOut) : Bool :=
  match o.highlightPeriods with
  | some ps => ps.any JPeriod.colorUndef
  | none => false

/-- `decompressJSON(compressedYamlString)`: `none` models the `catch`
returning `null` — from a `JSON.parse` failure on the re-wrapped string
(`none` input), from any exception in the body, or from the final
`jsyaml.dump` throwing on an `undefined` color. -/
def decompressJSON (input : Option (List JVal)) : Option JOut :=
  match input with
  | none => none
  | some xs =>
    match decompressBodyM xs with
    | Except.error _ => none
    | Except.ok out => if dumpThrows out then none else some out

/-- C5: a `JSON.parse` failure on the re-wrapped string surfaces as the
single `null` signal; whenever a config object is returned at all, every
array-form period in it is fully decoded (its color slot is never the
`undefined` of an out-of-range access — such a partially decoded object
makes the final `jsyaml.dump` throw inside the same `try`, which the `catch`
turns into `null`); concretely, a single-date wire entry missing its color,
a range entry missing its color, and an empty inner date array (whose
out-of-range read propagates `NaN` into `toISOString`) all decode to
`null`. -/
theorem decode_failure_signal :
    (decompressJSON none = none) ∧
    (∀ (xs : List JVal) (out : JOut), decompressJSON (some xs) = some out →
        ∀ ps, out.highlightPeriods = some ps → ∀ p ∈ ps, p.colorUndef = false) ∧
    (decompressJSON
        (some [JVal.jarr [], JVal.jarr [JVal.jarr [JVal.jnum 17367264]]]) = none) ∧
    (decompressJSON
        (some [JVal.jarr [], JVal.jarr [JVal.jarr [JVal.jnum 17367264, JVal.jnum 5]]]) = none) ∧
    (decompressJSON
        (some [JVal.jarr [], JVal.jarr [JVal.jarr [JVal.jarr []]]]) = none) := by
  refine ⟨rfl, ?_, rfl, rfl, rfl⟩
  intro xs out h ps hps p hp
  have h2 : (match decompressBodyM xs with
      | Except.error _ => none
      | Except.ok o => if dumpThrows o then none else some o) = some out := h
  cases hbody : decompressBodyM xs with
  | error e =>
    rw [hbody] at h2
    exact absurd h2 (by simp)
  | ok out2 =>
    rw [hbody] at h2
    have h3 : (if dumpThrows out2 = true then none else some out2) = some out := h2
    by_cases hdump : dumpThrows out2 = true
    · rw [if_pos hdump] at h3
      exact absurd h3 (by simp)
    · rw [if_neg hdump] at h3
      have hout := Option.some.inj h3
      subst hout
      unfold dumpThrows at hdump
      rw [hps] at hdump
      simp only [List.any_eq_true, not_exists, not_and] at hdump
      simpa using hdump p hp

/-- C5 witness: the second conjunct applied to a successfully decoded
single-date wire entry (day 0, color present). -/
theorem decode_failure_signal_witness :
    JPeriod.colorUndef (JPeriod.datesP [0] (JVal.jstr "#ff6b6b") none) = false :=
  decode_failure_signal.2.1
    [JVal.jnull, JVal.jarr [JVal.jarr [JVal.jnum 100, JVal.jstr "#ff6b6b"]]]
    (JOut.mk none (some [JPeriod.datesP [0] (JVal.jstr "#ff6b6b") none]) none) rfl
    [JPeriod.datesP [0] (JVal.jstr "#ff6b6b") none] rfl
    (JPeriod.datesP [0] (JVal.jstr "#ff6b6b") none) (by simp)

/-- `year - 2024` under JS numeric coercion (`-` never concatenates). -/
def jsSubYear (v : JVal) : JVal :=
  match jsToNumber v with
  | some n => JVal.jnum (n - 2024)
  | none => JVal.jnan

/-- `new Date(x).getTime()`, `none` = Invalid Date (`NaN`).  A date string
is the decimal rendering of its day index and parses to that day's UTC
midnight; non-date strings and exotic array/object operands are Invalid;
`null` and booleans coerce to small epoch offsets as in JS. -/
def jsDateMs : JVal → Option Int
  | .jstr s => (strToInt s).map (fun d => d * 86400000)
  | .jnum n => some n
  | .jnull => some 0
  | .jbool b => some (if b then 1 else 0)
  | .undef => none
  | .jnan => none
  | .jarr _ => none
  | .jobj _ => none

/-- `Math.floor(x / 100000)` on a possibly-`NaN` epoch value. -/
def floorUnits (ms : Option Int) : JVal :=
  match ms with
  | some v => JVal.jnum (Int.fdiv v 100000)
  | none => JVal.jnan

/-- `Math.ceil((endMs - startMs) / 86400000)` on possibly-`NaN` values. -/
def ceilDayDiff (endMs startMs : Option Int) : JVal :=
  match endMs, startMs with
  | some e, some s => JVal.jnum (ceilDiv (e - s) 86400000)
  | _, _ => JVal.jnan

/-- `a - b` on wire unit values (numeric coercion, `NaN` propagates). -/
def jsSubJ (a b : JVal) : JVal :=
  match jsToNumber a, jsToNumber b with
  | some x, some y => JVal.jnum (x - y)
  | _, _ => JVal.jnan

/-- `(date - baseDate) / (86400000 / 100000)`, exact for midnight dates
(fractional quotients cannot arise from date strings), written as flooring
division. -/
def divUnits (v : JVal) : JVal :=
  match jsToNumber v with
  | some n => JVal.jnum (Int.fdiv n (Int.fdiv 86400000 100000))
  | none => JVal.jnan

/-- The ascending numeric order used by `.sort((a, b) => a - b)`; a `NaN`
comparator result leaves the engine order unspecified, modelled by treating
`NaN` as `0` (irrelevant to the no-throw behaviour: sorting never throws). -/
def unitLe (a b : JVal) : Prop :=
  (jsToNumber a).getD 0 ≤ (jsToNumber b).getD 0

instance : DecidableRel unitLe := fun a b =>
  inferInstanceAs (Decidable ((jsToNumber a).getD 0 ≤ (jsToNumber b).getD 0))

def sortUnits (xs : List JVal) : List JVal := xs.insertionSort unitLe

/-- `x === 'auto'` (strict equality against the sentinel string). -/
def isAutoStr : JVal → Bool
  | .jstr s => s == "auto"
  | _ => false

/-- The per-period encoder of `compressYAML` on a runtime value: the range
branch under `period.start && period.end && period.color`, the discrete
branch under `period.dates && period.color` (throwing a `TypeError` when a
truthy `dates` is not an array), and the defensive passthrough.  Reading the
five properties throws only when the period itself is `null`/`undefined`,
exactly as the short-circuited JS accesses do.  Garbage dates merely produce
`NaN` (serialised as `null`), never a throw.  For an empty `dates` array the
base slot is the `undefined` of `sortedDates[0]!`. -/
def compressPeriodM (p : JVal) : Except Unit JVal := do
  let start ← getProp p "start"
  let stop ← getProp p "end"
  let dates ← getProp p "dates"
  let color ← getProp p "color"
  let label ← getProp p "label"
  if start.truthy ∧ stop.truthy ∧ color.truthy then
    let base := [floorUnits (jsDateMs start),
      ceilDayDiff (jsDateMs stop) (jsDateMs start), color]
    Except.ok (JVal.jarr (if label.truthy then base ++ [label] else base))
  else if dates.truthy ∧ color.truthy then
    match dates with
    | .jarr ds =>
      let sortedDates := sortUnits (ds.map (fun date => floorUnits (jsDateMs date)))
      match sortedDates with
      | [u] =>
        let base := [u, color]
        Except.ok (JVal.jarr (if label.truthy then base ++ [label] else base))
      | us =>
        let arr := JVal.jarr (jsIdx us 0 ::
          (us.drop 1).map (fun date => divUnits (jsSubJ date (jsIdx us 0))))
        let base := [arr, color]
        Except.ok (JVal.jarr (if label.truthy then base ++ [label] else base))
    | _ => Except.error ()
  else
    Except.ok p

/-- The body of `compressYAML` after `jsyaml.load` succeeded: reading
`.years`/`.highlightPeriods`/`.timezone` throws on a `null`/`undefined`
parse result; a truthy non-array `years` or `highlightPeriods` throws when
`.map` is called on it; positions 0 and 1 default to `[]`; the timezone is
appended only when truthy and not strictly equal to `'auto'`. -/
def compressBodyM (v : JVal) : Except Unit JVal := do
  let years ← getProp v "years"
  let compressedYears ←
    if years.truthy then
      match years with
      | .jarr ys => Except.ok (JVal.jarr (ys.map jsSubYear))
      | _ => Except.error ()
    else Except.ok (JVal.jarr [])
  let hps ← getProp v "highlightPeriods"
  let compressedPeriods ←
    if hps.truthy then
      match hps with
      | .jarr ps => do
        let cs ← ps.mapM compressPeriodM
        Except.ok (JVal.jarr cs)
      | _ => Except.error ()
    else Except.ok (JVal.jarr [])
  let tz ← getProp v "timezone"
  Except.ok (JVal.jarr
    (if tz.truthy && !(isAutoStr tz) then
      [compressedYears, compressedPeriods, tz]
    else [compressedYears, compressedPeriods]))

/-- `compressYAML(yamlString)`: `none` models the `catch` returning `null`,
from a YAML parse failure (`none` input) or from any exception in the body;
the final `JSON.stringify` plus bracket stripping is a total serialisation
(`undefined` array slots and `NaN` become `null`) and cannot throw, so it is
not modelled. -/
def compressYAML (input : Option JVal) : Option JVal :=
  match input with
  | none => none
  | some v =>
    match compressBodyM v with
    | Except.error _ => none
    | Except.ok out => some out

/-- C10: `compressYAML` never lets an exception escape — a YAML parse
failure gives `null`, a body that throws (a `null` parse result whose
`.years` access fails; a truthy non-array `years`) gives `null`, and every
non-throwing body value is returned as the compressed string; a well-formed
config compresses successfully, and a scalar parse result without
`years`/`highlightPeriods` fields does not throw either — it compresses to
the empty skeleton rather than `null`. -/
theorem compress_total_null_on_error :
    (compressYAML none = none) ∧
    (∀ v : JVal, compressBodyM v = Except.error () → compressYAML (some v) = none) ∧
    (∀ (v out : JVal), compressBodyM v = Except.ok out → compressYAML (some v) = some out) ∧
    (compressYAML (some JVal.jnull) = none) ∧
    (compressYAML (some (JVal.jobj [("years", JVal.jnum 5)])) = none) ∧
    (compressYAML (some (JVal.jobj [("years", JVal.jarr [JVal.jnum 2025]),
        ("highlightPeriods", JVal.jarr [JVal.jobj [("dates", JVal.jarr [JVal.jstr "20101"]),
          ("color", JVal.jstr "#ff6b6b")]])])) =
      some (JVal.jarr [JVal.jarr [JVal.jnum 1],
        JVal.jarr [JVal.jarr [JVal.jnum 17367264, JVal.jstr "#ff6b6b"]]])) ∧
    (compressYAML (some (JVal.jnum 42)) =
      some (JVal.jarr [JVal.jarr [], JVal.jarr []])) := by
  refine ⟨rfl, ?_, ?_, rfl, rfl, rfl, rfl⟩
  · intro v h
    show (match compressBodyM v with
      | Except.error _ => none
      | Except.ok out => some out) = none
    rw [h]
  · intro v out h
    show (match compressBodyM v with
      | Except.error _ => none
      | Except.ok o => some o) = some out
    rw [h]

/-- C10 witness: the error conjunct applied to the parse result `null`
(whose `.years` access throws a `TypeError`). -/
theorem compress_total_null_on_error_witness :
    compressYAML (some JVal.jnull) = none :=
  compress_total_null_on_error.2.1 JVal.jnull rfl
